import Mathlib

/-!
Verification of the quizwiz room-session state machine (src/app.py).

The Python module is embedded shallowly:
* socket-session ids (`request.sid`) are `Nat`;
* Python dicts (which preserve insertion order: assigning an existing key
  updates it in place, a new key is appended) are association lists with
  `dictGet?` / `dictSet` / `dictUpdate`;
* the question bank `QUESTIONS` / `CATEGORIES` is a parameter (its JSON file
  is external data), as are the results of `random.shuffle`, `random.sample`
  and `random.choice` (passed in as explicit oracle arguments);
* every `emit(...)` becomes an element of the returned notification list,
  tagged with its destination (`to=sid` vs `room=room`).
-/

namespace QuizWiz

/-- One converted question record `{"q": _, "a": _, "correct": _}` as built by
`load_questions`. The client-supplied answer index is an arbitrary JSON value,
so indices are modelled as `Int`. -/
structure Question where
  q : String
  a : List String
  correct : Int
deriving DecidableEq, Repr

/-- One entry of `g["players"]`: `{"name": name, "score": 0}`. Scores only ever
grow by positive point values, so `Nat` is faithful. -/
structure Player where
  name : String
  score : Nat
deriving DecidableEq, Repr

/-- A socket session id. -/
abbrev Sid := Nat

/-- Python `m[k]` lookup (as `Option`): the entry with the key (association
lists built by `dictSet` have unique keys, like a dict). -/
def dictGet? {α : Type} (m : List (Sid × α)) (k : Sid) : Option α :=
  match m with
  | [] => none
  | e :: m => if e.1 = k then some e.2 else dictGet? m k

/-- Python `m[k] = v`: update in place if the key exists (keeping the
insertion position, as dicts do), else append at the end. -/
def dictSet {α : Type} (m : List (Sid × α)) (k : Sid) (v : α) : List (Sid × α) :=
  match m with
  | [] => [(k, v)]
  | e :: m => if e.1 = k then (k, v) :: m else e :: dictSet m k v

/-- Python `m[k] = f(m[k])` on an existing key (in every reachable state the
updated key is present; on an absent key Python would raise, this changes
nothing). -/
def dictUpdate {α : Type} (m : List (Sid × α)) (k : Sid) (f : α → α) : List (Sid × α) :=
  match m with
  | [] => []
  | e :: m => if e.1 = k then (k, f e.2) :: m else e :: dictUpdate m k f

/-- The per-room game state built by `init_game` and mutated by the socket
handlers. Field names follow the Python dict keys. -/
structure Game where
  players : List (Sid × Player)
  order : List Sid
  round : Nat
  current_picker : Option Sid
  picker_counts : List (Sid × Nat)
  category : Option String
  category_options : List String
  questions : List (Sid × Question)
  answers : List (Sid × Option Int)
  difficulties : List (Sid × String)
  phase : String
deriving DecidableEq, Repr

/-- Destination of an `emit`: `to=sid` (private) or `room=room` (broadcast). -/
inductive Dest
  | toPlayer (sid : Sid)
  | toRoom
deriving DecidableEq, Repr

/-- The outbound socket events of app.py, with their payloads. -/
inductive Notif
  | joined (sid : Sid)
  | player_list (players : List String)
  | round_start (roundId : Nat) (picker : String) (pickerSid : Sid)
      (categories : List String)
  | category_chosen (category : String) (roundId : Nat)
  | question (question : String) (answers : List String) (roundId : Nat)
  | answer_feedback (correct : Bool) (correctIndex : Int)
  | round_end
  | game_over (results : List (String × Nat)) (winner : String)
deriving DecidableEq, Repr

/-- One emitted notification with its destination. -/
abbrev Emit := Dest × Notif

/-- `POINTS = {"easy": 10, "medium": 25, "hard": 50}`; `none` models
`difficulty not in POINTS`. -/
def POINTS (d : String) : Option Nat :=
  if d = "easy" then some 10
  else if d = "medium" then some 25
  else if d = "hard" then some 50
  else none

/-- `init_game()`. -/
def init_game : Game :=
  { players := []
    order := []
    round := 0
    current_picker := none
    picker_counts := []
    category := none
    category_options := []
    questions := []
    answers := []
    difficulties := []
    phase := "lobby" }

/-- `join` (the `join_room` handler) on an existing room: unconditionally
stores the player with score 0 and picker count 0, then emits the private
`joined` ack and the room-wide `player_list`. -/
def join (g : Game) (sid : Sid) (name : String) : Game × List Emit :=
  ({ g with players := dictSet g.players sid ⟨name, 0⟩
            picker_counts := dictSet g.picker_counts sid 0 },
   [(Dest.toPlayer sid, Notif.joined sid),
    (Dest.toRoom, Notif.player_list
      ((dictSet g.players sid ⟨name, 0⟩).map (fun e => e.2.name)))])

/-- `g["picker_counts"][sid]` (0 when absent; in every reachable state a sid
scanned by `next_round` is present, having been set on join). -/
def countOf (g : Game) (sid : Sid) : Nat :=
  (dictGet? g.picker_counts sid).getD 0

/-- The `(name, score)` pairs of the `results` list of `end_game`, in player-dict
iteration (insertion) order. -/
def gameResults (g : Game) : List (String × Nat) :=
  g.players.map (fun e => (e.2.name, e.2.score))

/-- Stable insertion of a `(name, score)` pair into a list sorted by
descending score: skips strictly greater scores, lands before the first
less-or-equal one. -/
def insertDesc (x : String × Nat) : List (String × Nat) → List (String × Nat)
  | [] => [x]
  | y :: ys => if y.2 > x.2 then y :: insertDesc x ys else x :: y :: ys

/-- The Python `sorted(results, key=lambda r: -r["score"])`: `sorted` is a
stable sort, so on the key `-score` it is exactly the stable
descending-by-score sort, which this insertion sort computes. -/
def sortDesc : List (String × Nat) → List (String × Nat)
  | [] => []
  | x :: xs => insertDesc x (sortDesc xs)

/-- `sorted_res[0]["name"] if sorted_res else "Ingen"`: the winner field of
`end_game`. -/
def winnerName (g : Game) : String :=
  match sortDesc (gameResults g) with
  | [] => "Ingen"
  | r :: _ => r.1

/-- `end_game(room)`: note the code emits the UNSORTED `results` list;
`sorted_res` is only consulted for the winner. The state is not changed. -/
def end_game (g : Game) : Game × List Emit :=
  (g, [(Dest.toRoom, Notif.game_over (gameResults g) (winnerName g))])

/-- `next_round(room)`. `cats` is the `CATEGORIES` list of the bank; `sample3` is the
oracle for `random.sample(CATEGORIES, 3)` (used only when `cats.length ≥ 3`). -/
def next_round (cats sample3 : List String) (g : Game) : Game × List Emit :=
  match g.order.find? (fun sid => decide (countOf g sid < 2)) with
  | some sid =>
      ({ g with
          round := g.round + 1
          current_picker := some sid
          picker_counts := dictSet g.picker_counts sid (countOf g sid + 1)
          category := none
          category_options := if cats.length ≥ 3 then sample3 else cats
          answers := []
          questions := []
          difficulties := [] },
       [(Dest.toRoom, Notif.round_start (g.round + 1)
          (((dictGet? g.players sid).map Player.name).getD "") sid
          (if cats.length ≥ 3 then sample3 else cats))])
  | none => end_game g

/-- `start_game` on an existing room: sets `order` to the shuffled player
ids (`shuffled` is the oracle for `random.shuffle`) and runs `next_round`. -/
def start_game (cats sample3 : List String) (shuffled : List Sid) (g : Game) :
    Game × List Emit :=
  next_round cats sample3 { g with order := shuffled }

/-- `choose` (the `choose_category` handler) on an existing room. `bankCats`
is the `CATEGORIES` list of the bank (the keys of `QUESTIONS`). -/
def choose (bankCats : List String) (g : Game) (sid : Sid) (cat : String) :
    Game × List Emit :=
  if g.current_picker ≠ some sid then (g, [])
  else if ¬ cat ∈ g.category_options then (g, [])
  else if ¬ cat ∈ bankCats then (g, [])
  else ({ g with category := some cat },
        [(Dest.toRoom, Notif.category_chosen cat g.round)])

/-- `pick_diff` (the `choose_difficulty` handler) on an existing room.
`bank cat diff` is `QUESTIONS[cat].get(diff, [])`; `chooseQ` is the oracle
for `random.choice` on a non-empty pool. Note the empty-pool branch returns
right after emitting the placeholder: it records the difficulty but stores
no question and initializes no answer slot. -/
def pick_diff (bank : String → String → List Question)
    (chooseQ : List Question → Question) (g : Game) (sid : Sid)
    (difficulty : String) : Game × List Emit :=
  match g.category with
  | none => (g, [])
  | some cat =>
    if ¬ difficulty ∈ ["easy", "medium", "hard"] then (g, [])
    else
      match bank cat difficulty with
      | [] =>
          ({ g with difficulties := dictSet g.difficulties sid difficulty },
           [(Dest.toPlayer sid,
             Notif.question "No questions available for this category/difficulty."
               ["OK", "OK", "OK", "OK"] g.round)])
      | q0 :: rest =>
          ({ g with
              difficulties := dictSet g.difficulties sid difficulty
              questions := dictSet g.questions sid (chooseQ (q0 :: rest))
              answers := dictSet g.answers sid none },
           [(Dest.toPlayer sid,
             Notif.question (chooseQ (q0 :: rest)).q (chooseQ (q0 :: rest)).a
               g.round)])

/-- `psid in g["answers"] and g["answers"][psid] is not None`. -/
def hasAnswer (m : List (Sid × Option Int)) (k : Sid) : Bool :=
  match dictGet? m k with
  | some (some _) => true
  | _ => false

/-- The round-completion barrier of `receive_answer`: every currently-joined
player has a non-None answer entry. -/
def allAnswered (g : Game) : Bool :=
  g.players.all (fun e => hasAnswer g.answers e.1)

/-- The score mutation of `receive_answer`:
`if correct and difficulty in POINTS: g["players"][sid]["score"] += POINTS[difficulty]`
(where `difficulty = g["difficulties"].get(sid)`). -/
def scoreUpdate (g : Game) (sid : Sid) (correct : Bool) : Game :=
  if correct then
    match dictGet? g.difficulties sid with
    | some d =>
        match POINTS d with
        | some v =>
            { g with players :=
                dictUpdate g.players sid (fun p => { p with score := p.score + v }) }
        | none => g
    | none => g
  else g

/-- `receive_answer` (the `submit_answer` handler) on an existing room:
requires a stored question for the sender, then unconditionally overwrites
the answer slot, adds the points of the difficulty on a correct answer
(`scoreUpdate`), sends private feedback, and — when the barrier holds —
broadcasts `round_end` and runs `next_round` (the `socketio.sleep(1)` is a
pure delay with no state effect). `cats`/`sample3` feed the inner
`next_round`. -/
def receive_answer (cats sample3 : List String) (g : Game) (sid : Sid)
    (answer : Int) : Game × List Emit :=
  match dictGet? g.questions sid with
  | none => (g, [])
  | some q =>
    let g2 : Game :=
      scoreUpdate { g with answers := dictSet g.answers sid (some answer) }
        sid (decide (answer = q.correct))
    if allAnswered g2 then
      ((next_round cats sample3 g2).1,
       (Dest.toPlayer sid, Notif.answer_feedback (decide (answer = q.correct)) q.correct)
         :: (Dest.toRoom, Notif.round_end) :: (next_round cats sample3 g2).2)
    else
      (g2, [(Dest.toPlayer sid,
             Notif.answer_feedback (decide (answer = q.correct)) q.correct)])

/-- The state after one `next_round` call. -/
def nextState (cats sample3 : List String) (g : Game) : Game :=
  (next_round cats sample3 g).1

/-- The pickers observed over `n` successive `next_round` calls. -/
def pickerTrace (cats sample3 : List String) : Nat → Game → List (Option Sid)
  | 0, _ => []
  | n + 1, g =>
      (nextState cats sample3 g).current_picker ::
        pickerTrace cats sample3 n (nextState cats sample3 g)

/-! ### Concrete scenario scaffolding

A one-category bank (so `category_options` is always `["Cat"]`) with a single
hard question whose correct index is 0, and a deterministic `random.choice`
oracle. All the concrete states below are built by running the handlers
themselves from `init_game`. -/

/-- A bank with one category `Cat` holding exactly one hard question. -/
def bankOne : String → String → List Question :=
  fun c d => if c = "Cat" ∧ d = "hard" then [⟨"Q?", ["w", "x", "y", "z"], 0⟩] else []

/-- A deterministic oracle for `random.choice`. -/
def chooseHead : List Question → Question :=
  fun l => l.headD ⟨"", [], 0⟩

/-- Players A (sid 1), B (sid 2), C (sid 3) joined, game not yet started. -/
def threeRoom : Game :=
  (join (join (join init_game 1 "A").1 2 "B").1 3 "C").1

/-- The three-player game started with shuffle order [B, A, C] = [2, 1, 3]. -/
def threeStart : Game := (start_game ["Cat"] [] [2, 1, 3] threeRoom).1

/-- The pickers of all six rounds of the three-player game: the picker chosen
at start, then the pickers of the five further round transitions. -/
def threePickers : List (Option Sid) :=
  threeStart.current_picker :: pickerTrace ["Cat"] [] 5 threeStart

/-- Player A (sid 1) alone, game started (round 1, A is picker). -/
def oneStart : Game := (start_game ["Cat"] [] [1] (join init_game 1 "A").1).1

/-- The one-player game with category `Cat` chosen for round 1. -/
def oneChosen : Game := (choose ["Cat"] oneStart 1 "Cat").1

/-- The one-player game where A holds the round-1 hard question (answer slot
initialized, not yet answered). -/
def oneReady : Game := (pick_diff bankOne chooseHead oneChosen 1 "hard").1

/-- The one-player game after A answered round 1 correctly on hard: round 2
has started. -/
def oneRound2 : Game := (receive_answer ["Cat"] [] oneReady 1 0).1

/-- The call that finishes the one-player game: A answers round 2 correctly,
the barrier fires, `next_round` finds no eligible picker and `end_game` runs. -/
def oneOverCall : Game × List Emit :=
  receive_answer ["Cat"] []
    (pick_diff bankOne chooseHead (choose ["Cat"] oneRound2 1 "Cat").1 1 "hard").1 1 0

/-- The one-player session after `game_over` was broadcast. -/
def oneOver : Game := oneOverCall.1

/-- Players A (sid 1) and B (sid 2) joined, game not yet started. -/
def twoRoom : Game := (join (join init_game 1 "A").1 2 "B").1

/-- The two-player game started with order [1, 2]. -/
def twoStart : Game := (start_game ["Cat"] [] [1, 2] twoRoom).1

/-- The two-player game where A holds the round-1 hard question and B has not
yet requested one. -/
def c2Ready : Game :=
  (pick_diff bankOne chooseHead (choose ["Cat"] twoStart 1 "Cat").1 1 "hard").1

/-- A submitted the correct index 0 once (B still unanswered, so the round
barrier does not fire). -/
def c2Once : Game := (receive_answer ["Cat"] [] c2Ready 1 0).1

/-- One full round of the two-player game: the picker chooses `Cat`, both
players request a hard question, A answers 1 (wrong), B answers 0 (correct). -/
def roundPlayed (g : Game) (pickerSid : Sid) : Game × List Emit :=
  receive_answer ["Cat"] [] (receive_answer ["Cat"] [] (pick_diff bankOne chooseHead
    (pick_diff bankOne chooseHead (choose ["Cat"] g pickerSid "Cat").1 1 "hard").1
    2 "hard").1 1 1).1 2 0

/-- The two-player game after round 1 (picker A). -/
def c7R1 : Game := (roundPlayed twoStart 1).1

/-- The two-player game after round 2 (picker A again). -/
def c7R2 : Game := (roundPlayed c7R1 1).1

/-- The two-player game after round 3 (picker B). -/
def c7R3 : Game := (roundPlayed c7R2 2).1

/-! ### Definitions for the general theorems -/

/-- Remaining picking capacity of the rotation: the sum over `order` of how
many of their two picks each player still has left. Each successful
`next_round` decreases it by one; the game ends when it reaches zero. -/
def phi (g : Game) : Nat :=
  (g.order.map (fun sid => 2 - countOf g sid)).sum

/-- Holds of an emission unless it is a `question` notification addressed
anywhere but privately to `sid`. -/
def questionPrivateTo (sid : Sid) (e : Emit) : Bool :=
  match e.2 with
  | Notif.question _ _ _ => e.1 == Dest.toPlayer sid
  | _ => true

/-- Holds of an emission iff it is not a `question` notification at all. -/
def noQuestionNotif (e : Emit) : Bool :=
  match e.2 with
  | Notif.question _ _ _ => false
  | _ => true

/-- Holds of an emission iff it is one of the two notifications `next_round`
can produce: `round_start` (a new round) or `game_over` (termination). Used to
observe that the round transition ran. -/
def isTransitionNotif (e : Emit) : Bool :=
  match e.2 with
  | Notif.round_start _ _ _ _ => true
  | Notif.game_over _ _ => true
  | _ => false

/-- Holds of an emission iff it is the room-wide `round_end` notification. -/
def isRoundEndNotif (e : Emit) : Bool :=
  match e with
  | (Dest.toRoom, Notif.round_end) => true
  | _ => false

/-- The session states reachable from `init_game` through the socket
handlers, with the randomness oracles arbitrary. -/
inductive Reachable : Game → Prop
  | init : Reachable init_game
  | join_step (g : Game) (sid : Sid) (name : String) :
      Reachable g → Reachable (join g sid name).1
  | start_step (cats sample3 : List String) (shuffled : List Sid) (g : Game) :
      Reachable g → Reachable (start_game cats sample3 shuffled g).1
  | next_step (cats sample3 : List String) (g : Game) :
      Reachable g → Reachable (next_round cats sample3 g).1
  | choose_step (bankCats : List String) (g : Game) (sid : Sid) (cat : String) :
      Reachable g → Reachable (choose bankCats g sid cat).1
  | diff_step (bank : String → String → List Question)
      (chooseQ : List Question → Question) (g : Game) (sid : Sid)
      (difficulty : String) :
      Reachable g → Reachable (pick_diff bank chooseQ g sid difficulty).1
  | answer_step (cats sample3 : List String) (g : Game) (sid : Sid)
      (answer : Int) :
      Reachable g → Reachable (receive_answer cats sample3 g sid answer).1
  | end_step (g : Game) : Reachable g → Reachable (end_game g).1

/-! ### Dictionary lemmas -/

/-- Lookup after `dictSet`. -/
theorem dictGet?_dictSet {α : Type} (m : List (Sid × α)) (k k' : Sid) (v : α) :
    dictGet? (dictSet m k v) k' = if k' = k then some v else dictGet? m k' := by
  induction m with
  | nil =>
    by_cases h : k' = k
    · simp [dictSet, dictGet?, h]
    · have hkk : ¬ k = k' := fun hh => h hh.symm
      simp [dictSet, dictGet?, h, hkk]
  | cons e m ih =>
    by_cases hek : e.1 = k
    · by_cases h : k' = k
      · simp [dictSet, dictGet?, hek, h]
      · have hkk : ¬ k = k' := fun hh => h hh.symm
        have hek' : ¬ e.1 = k' := fun hh => h (hh.symm.trans hek)
        simp [dictSet, dictGet?, hek, h, hkk, hek']
    · by_cases hek' : e.1 = k'
      · have h : ¬ k' = k := fun hh => hek (hek'.trans hh)
        simp [dictSet, dictGet?, hek, hek', h]
      · simp [dictSet, dictGet?, hek, hek', ih]

/-- Lookup after `dictUpdate`. -/
theorem dictGet?_dictUpdate {α : Type} (m : List (Sid × α)) (k k' : Sid)
    (f : α → α) :
    dictGet? (dictUpdate m k f) k' =
      if k' = k then (dictGet? m k).map f else dictGet? m k' := by
  induction m with
  | nil => simp [dictUpdate, dictGet?]
  | cons e m ih =>
    by_cases hek : e.1 = k
    · by_cases h : k' = k
      · simp [dictUpdate, dictGet?, hek, h]
      · have hkk : ¬ k = k' := fun hh => h hh.symm
        have hek' : ¬ e.1 = k' := fun hh => h (hh.symm.trans hek)
        simp [dictUpdate, dictGet?, hek, h, hkk, hek']
    · by_cases hek' : e.1 = k'
      · have h : ¬ k' = k := fun hh => hek (hek'.trans hh)
        simp [dictUpdate, dictGet?, hek, hek', h]
      · simp [dictUpdate, dictGet?, hek, hek', ih]

/-- `dictUpdate` keeps the key sequence, so any predicate on keys alone is
unaffected. -/
theorem all_keys_dictUpdate {α : Type} (m : List (Sid × α)) (k : Sid)
    (f : α → α) (p : Sid → Bool) :
    (dictUpdate m k f).all (fun e => p e.1) = m.all (fun e => p e.1) := by
  induction m with
  | nil => rfl
  | cons e m ih =>
    by_cases hek : e.1 = k
    · simp [dictUpdate, hek]
    · simp [dictUpdate, hek, ih]

/-- Recording an answer for `k0` makes `hasAnswer` true there and changes no
other slot. -/
theorem hasAnswer_dictSet (m : List (Sid × Option Int)) (k0 k : Sid) (a : Int) :
    hasAnswer (dictSet m k0 (some a)) k = ((k == k0) || hasAnswer m k) := by
  by_cases h : k = k0 <;> simp [hasAnswer, dictGet?_dictSet, h]

/-! ### Claim C1: picker rotation with fixed shuffle order [B, A, C] -/

/-- C1 counterexample: with three players A = 1, B = 2, C = 3 and the fixed
shuffle order [B, A, C] = [2, 1, 3], the sequence of round pickers produced by
repeated round transitions is NOT B, A, C, B, A, C: the claim fails on the
code, because `next_round` rescans `order` from its head every time, so the
first eligible player picks again immediately. -/
theorem C1_counterexample :
    threePickers ≠ [some 2, some 1, some 3, some 2, some 1, some 3] := by
  decide

/-- C1 (amended): with three players and the fixed shuffle order
[B, A, C] = [2, 1, 3], the round pickers are B, B, A, A, C, C — each scan of
`order` restarts at the head, so the first player with fewer than two picks
repeats — and the seventh transition broadcasts `game_over`. -/
theorem C1_picker_sequence :
    threePickers = [some 2, some 2, some 1, some 1, some 3, some 3] ∧
    (next_round ["Cat"] [] (Nat.iterate (nextState ["Cat"] []) 5 threeStart)).2 =
      [(Dest.toRoom, Notif.game_over [("A", 0), ("B", 0), ("C", 0)] "A")] := by
  decide

/-! ### Claim C2: duplicate answer submissions -/

/-- C2: the code evaluated at the failing input. Player A (sid 1) holds the
round-1 hard question with correct index 0 and already answered 0, scoring 50;
player B has not answered. A second `submit_answer` from A is NOT a rejected
no-op: the handler emits feedback again and adds another 50 (total 100, not
the at-most-50 the claim states), and a differing resubmission overwrites the
stored answer slot. -/
theorem C2_duplicate_submission_rescored :
    dictGet? c2Once.players 1 = some ⟨"A", 50⟩ ∧
    dictGet? c2Once.answers 1 = some (some 0) ∧
    dictGet? (receive_answer ["Cat"] [] c2Once 1 0).1.players 1 = some ⟨"A", 100⟩ ∧
    (receive_answer ["Cat"] [] c2Once 1 0).2 =
      [(Dest.toPlayer 1, Notif.answer_feedback true 0)] ∧
    dictGet? (receive_answer ["Cat"] [] c2Once 1 2).1.answers 1 = some (some 2) := by
  decide

/-! ### Claim C3: total number of rounds -/

/-- C3 counterexample: a game whose only player at start is A (sid 1) runs a
THIRD round when A rejoins during round 2 — `join` resets the picker count of
an existing sid to 0 at any time, so the total of rounds run before
`game_over` is not always 2 x (players at start); the claimed bound of exactly
2 rounds for a single-player game fails on the code. -/
theorem C3_counterexample :
    oneStart.players.length = 1 ∧
    oneRound2.round = 2 ∧
    dictGet? (join oneRound2 1 "A").1.picker_counts 1 = some 0 ∧
    (receive_answer ["Cat"] []
        (pick_diff bankOne chooseHead
          (choose ["Cat"] (join oneRound2 1 "A").1 1 "Cat").1 1 "hard").1 1 0).2 =
      [(Dest.toPlayer 1, Notif.answer_feedback true 0),
       (Dest.toRoom, Notif.round_end),
       (Dest.toRoom, Notif.round_start 3 "A" 1 ["Cat"])] := by
  decide

/-! ### Claim C4: operations after game over -/

/-- C4: the code evaluated at the failing input. After the one-player game has
broadcast `game_over` (A finished with score 100), a further `submit_answer`
from A is still accepted: the round-scoped maps were never cleared on the
terminal transition, so the handler scores A again (150), emits feedback,
`round_end` and a second `game_over`; `choose_category` and
`choose_difficulty` likewise still mutate state and emit. -/
theorem C4_post_game_operations_accepted :
    oneOverCall.2 =
      [(Dest.toPlayer 1, Notif.answer_feedback true 0),
       (Dest.toRoom, Notif.round_end),
       (Dest.toRoom, Notif.game_over [("A", 100)] "A")] ∧
    dictGet? (receive_answer ["Cat"] [] oneOver 1 0).1.players 1 =
      some ⟨"A", 150⟩ ∧
    (receive_answer ["Cat"] [] oneOver 1 0).2 =
      [(Dest.toPlayer 1, Notif.answer_feedback true 0),
       (Dest.toRoom, Notif.round_end),
       (Dest.toRoom, Notif.game_over [("A", 150)] "A")] ∧
    (choose ["Cat"] oneOver 1 "Cat").2 =
      [(Dest.toRoom, Notif.category_chosen "Cat" 2)] ∧
    (pick_diff bankOne chooseHead (choose ["Cat"] oneOver 1 "Cat").1 1 "hard").2 =
      [(Dest.toPlayer 1, Notif.question "Q?" ["w", "x", "y", "z"] 2)] := by
  decide

/-! ### Claim C6: empty question pool -/

/-- C6 counterexample: in the one-player game with category `Cat` chosen, the
(`Cat`, easy) pool of `bankOne` is empty; `choose_difficulty` then emits the
degenerate placeholder privately but returns BEFORE storing any question or
initializing the answer slot: the per-player question map has no entry for the
player and the answer slot stays absent, so the claim that the placeholder is
stored and the slot initialized fails on the code. -/
theorem C6_counterexample :
    (pick_diff bankOne chooseHead oneChosen 1 "easy").2 =
      [(Dest.toPlayer 1, Notif.question
        "No questions available for this category/difficulty."
        ["OK", "OK", "OK", "OK"] 1)] ∧
    dictGet? (pick_diff bankOne chooseHead oneChosen 1 "easy").1.questions 1 =
      none ∧
    dictGet? (pick_diff bankOne chooseHead oneChosen 1 "easy").1.answers 1 =
      none ∧
    dictGet? (pick_diff bankOne chooseHead oneChosen 1 "easy").1.difficulties 1 =
      some "easy" := by
  decide

/-! ### Claim C7: the game_over ranking -/

/-- C7 counterexample: the full two-player game (A always wrong, B always
right on hard) ends with scores A = 0, B = 200, and the `game_over` broadcast
carries the results list in JOIN order [A, B], which is not sorted by
descending score — the code sorts into `sorted_res` but emits the unsorted
`results`, so the claim that the results list is the descending ranking fails
on the code (the winner field, by contrast, does come from the sorted list). -/
theorem C7_counterexample :
    (roundPlayed c7R3 2).2 =
      [(Dest.toPlayer 2, Notif.answer_feedback true 0),
       (Dest.toRoom, Notif.round_end),
       (Dest.toRoom, Notif.game_over [("A", 0), ("B", 200)] "B")] ∧
    [("A", 0), ("B", 200)] ≠ sortDesc [("A", 0), ("B", 200)] := by
  decide

/-! ### Claim C9: joining after the game has started -/

/-- C9 counterexample: the one-player game has started (round 1 is running
with order [1]), yet `join` from a new sid 2 still adds the player to the
session — the handler never checks any phase, so the claim that join after
start does not add a player fails on the code. -/
theorem C9_counterexample :
    oneStart.round = 1 ∧
    oneStart.order = [1] ∧
    dictGet? (join oneStart 2 "B").1.players 2 = some ⟨"B", 0⟩ ∧
    dictGet? (join oneStart 2 "B").1.picker_counts 2 = some 0 := by
  decide

/-- C9 (amended): `join` on an existing room adds the player with score 0 and
picker count 0 at ANY time — before or after the game has started — since the
handler validates nothing beyond room existence; the rotation (`order`) and
round counter are untouched, and the private ack plus the room-wide player
list are emitted. (A rejoining sid is likewise reset to score 0 and picker
count 0.) -/
theorem C9_join_adds_player (g : Game) (sid : Sid) (name : String) :
    dictGet? (join g sid name).1.players sid = some ⟨name, 0⟩ ∧
    dictGet? (join g sid name).1.picker_counts sid = some 0 ∧
    (join g sid name).1.order = g.order ∧
    (join g sid name).1.round = g.round ∧
    (join g sid name).2 =
      [(Dest.toPlayer sid, Notif.joined sid),
       (Dest.toRoom, Notif.player_list
         ((dictSet g.players sid ⟨name, 0⟩).map (fun e => e.2.name)))] := by
  refine ⟨?_, ?_, rfl, rfl, rfl⟩ <;> simp [join, dictGet?_dictSet]

/-- C6 (amended): when a category is chosen, the difficulty is valid and the
(category, difficulty) pool is empty, `choose_difficulty` records the
difficulty and emits the degenerate placeholder question privately to the
requesting player, but it returns before storing anything: the per-player
question map and the answer slots are left exactly as they were, so the
player holds no question and cannot take part in the round barrier. -/
theorem C6_placeholder_not_stored (bank : String → String → List Question)
    (chooseQ : List Question → Question) (g : Game) (sid : Sid)
    (cat difficulty : String) (hcat : g.category = some cat)
    (hdiff : difficulty ∈ ["easy", "medium", "hard"])
    (hpool : bank cat difficulty = []) :
    (pick_diff bank chooseQ g sid difficulty).1 =
      { g with difficulties := dictSet g.difficulties sid difficulty } ∧
    (pick_diff bank chooseQ g sid difficulty).1.questions = g.questions ∧
    (pick_diff bank chooseQ g sid difficulty).1.answers = g.answers ∧
    (pick_diff bank chooseQ g sid difficulty).2 =
      [(Dest.toPlayer sid, Notif.question
        "No questions available for this category/difficulty."
        ["OK", "OK", "OK", "OK"] g.round)] := by
  unfold pick_diff
  rw [hcat]
  simp [hdiff, hpool]

/-- C6 witness: the amended statement instantiated on the one-player game with
category `Cat` chosen, at difficulty easy, whose pool in `bankOne` is empty. -/
theorem C6_placeholder_not_stored_witness :
    (pick_diff bankOne chooseHead oneChosen 1 "easy").1 =
      { oneChosen with difficulties := dictSet oneChosen.difficulties 1 "easy" } ∧
    (pick_diff bankOne chooseHead oneChosen 1 "easy").1.questions =
      oneChosen.questions ∧
    (pick_diff bankOne chooseHead oneChosen 1 "easy").1.answers =
      oneChosen.answers ∧
    (pick_diff bankOne chooseHead oneChosen 1 "easy").2 =
      [(Dest.toPlayer 1, Notif.question
        "No questions available for this category/difficulty."
        ["OK", "OK", "OK", "OK"] oneChosen.round)] :=
  C6_placeholder_not_stored bankOne chooseHead oneChosen 1 "Cat" "easy"
    (by decide) (by decide) (by decide)

/-! ### Claim C10: the phase field -/

/-- Neither branch of `next_round` writes `phase`. -/
theorem next_round_phase (cats sample3 : List String) (g : Game) :
    (next_round cats sample3 g).1.phase = g.phase := by
  unfold next_round
  rcases g.order.find? (fun s => decide (countOf g s < 2)) with _ | sid <;> rfl

/-- `pick_diff` never writes `phase`. -/
theorem pick_diff_phase (bank : String → String → List Question)
    (chooseQ : List Question → Question) (g : Game) (sid : Sid)
    (difficulty : String) :
    (pick_diff bank chooseQ g sid difficulty).1.phase = g.phase := by
  unfold pick_diff
  repeat' split
  all_goals rfl

/-- `choose` never writes `phase`. -/
theorem choose_phase (bankCats : List String) (g : Game) (sid : Sid)
    (cat : String) :
    (choose bankCats g sid cat).1.phase = g.phase := by
  unfold choose
  split_ifs <;> rfl

/-- `scoreUpdate` never writes `phase`. -/
theorem scoreUpdate_phase (g : Game) (sid : Sid) (c : Bool) :
    (scoreUpdate g sid c).phase = g.phase := by
  unfold scoreUpdate
  repeat' split
  all_goals rfl

/-- `receive_answer` never writes `phase`. -/
theorem receive_answer_phase (cats sample3 : List String) (g : Game)
    (sid : Sid) (answer : Int) :
    (receive_answer cats sample3 g sid answer).1.phase = g.phase := by
  unfold receive_answer
  rcases dictGet? g.questions sid with _ | q
  · rfl
  · dsimp only
    split
    · rw [next_round_phase, scoreUpdate_phase]
    · rw [scoreUpdate_phase]

/-- C10: the `phase` field is set to "lobby" by `init_game` and no handler
ever writes it, so every reachable session state has phase "lobby" — the
Lobby → RoundInProgress → GameOver progression of the spec is not reflected
in this field. -/
theorem C10_phase_always_lobby (g : Game) (h : Reachable g) :
    g.phase = "lobby" := by
  induction h with
  | init => rfl
  | join_step g sid name _ ih => exact ih
  | start_step cats sample3 shuffled g _ ih =>
      unfold start_game
      rw [next_round_phase]
      exact ih
  | next_step cats sample3 g _ ih => rw [next_round_phase]; exact ih
  | choose_step bankCats g sid cat _ ih => rw [choose_phase]; exact ih
  | diff_step bank chooseQ g sid difficulty _ ih => rw [pick_diff_phase]; exact ih
  | answer_step cats sample3 g sid answer _ ih =>
      rw [receive_answer_phase]; exact ih
  | end_step g _ ih => exact ih

/-- C10 witness: the invariant applied to the initial session state. -/
theorem C10_phase_always_lobby_witness : init_game.phase = "lobby" :=
  C10_phase_always_lobby init_game Reachable.init

/-! ### Claim C8: question privacy -/

/-- `next_round` only ever emits `round_start` or `game_over`, never a
`question` notification. -/
theorem next_round_no_question (cats sample3 : List String) (g : Game) :
    ((next_round cats sample3 g).2).all noQuestionNotif = true := by
  unfold next_round
  rcases g.order.find? (fun s => decide (countOf g s < 2)) with _ | sid <;>
    simp [end_game, noQuestionNotif]

/-- C8: a `question` notification is emitted only by `choose_difficulty`, and
there it is addressed privately (`to=sid`) to the requesting player alone; no
other handler (join, start, round transition, category choice, answer
submission, game over) ever emits question content, so no player can receive
a notification carrying the question of another player. -/
theorem C8_question_privacy (bank : String → String → List Question)
    (chooseQ : List Question → Question) (bankCats cats sample3 : List String)
    (g : Game) (sid : Sid) (difficulty cat name : String)
    (shuffled : List Sid) (answer : Int) :
    ((pick_diff bank chooseQ g sid difficulty).2).all (questionPrivateTo sid)
      = true ∧
    ((join g sid name).2).all noQuestionNotif = true ∧
    ((start_game cats sample3 shuffled g).2).all noQuestionNotif = true ∧
    ((next_round cats sample3 g).2).all noQuestionNotif = true ∧
    ((choose bankCats g sid cat).2).all noQuestionNotif = true ∧
    ((receive_answer cats sample3 g sid answer).2).all noQuestionNotif = true ∧
    ((end_game g).2).all noQuestionNotif = true := by
  refine ⟨?_, ?_, ?_, ?_, ?_, ?_, ?_⟩
  · unfold pick_diff
    repeat' split
    all_goals simp [questionPrivateTo]
  · simp [join, noQuestionNotif]
  · exact next_round_no_question cats sample3 { g with order := shuffled }
  · exact next_round_no_question cats sample3 g
  · unfold choose
    split_ifs <;> simp [noQuestionNotif]
  · unfold receive_answer
    rcases dictGet? g.questions sid with _ | q
    · rfl
    · dsimp only
      repeat' split
      all_goals simp [noQuestionNotif, next_round_no_question]
  · simp [end_game, noQuestionNotif]

/-! ### Claim C5: the round-completion barrier -/

/-- `scoreUpdate` does not touch the answer map. -/
theorem scoreUpdate_answers (g : Game) (sid : Sid) (c : Bool) :
    (scoreUpdate g sid c).answers = g.answers := by
  unfold scoreUpdate
  repeat' split
  all_goals rfl

/-- `scoreUpdate` keeps the player keys, so any per-key `all` is unchanged. -/
theorem scoreUpdate_players_keys (g : Game) (sid : Sid) (c : Bool)
    (p : Sid → Bool) :
    (scoreUpdate g sid c).players.all (fun e => p e.1) =
      g.players.all (fun e => p e.1) := by
  unfold scoreUpdate
  repeat' split
  all_goals first
    | rfl
    | (apply all_keys_dictUpdate)

/-- After recording the answer of `sid`, each answer slot is full exactly when
it already was or belongs to `sid`. -/
theorem all_hasAnswer_dictSet (players : List (Sid × Player))
    (answers : List (Sid × Option Int)) (sid : Sid) (answer : Int) :
    players.all (fun e => hasAnswer (dictSet answers sid (some answer)) e.1) =
      players.all (fun e => (e.1 == sid) || hasAnswer answers e.1) := by
  induction players with
  | nil => rfl
  | cons e m ih => simp [List.all_cons, hasAnswer_dictSet, ih]

/-- The barrier evaluated by `receive_answer` equals: every joined player is
the sender or already had a non-empty answer slot. -/
theorem allAnswered_scoreUpdate (g : Game) (sid : Sid) (answer : Int)
    (c : Bool) :
    allAnswered (scoreUpdate
        { g with answers := dictSet g.answers sid (some answer) } sid c) =
      g.players.all (fun e => (e.1 == sid) || hasAnswer g.answers e.1) := by
  unfold allAnswered
  rw [scoreUpdate_answers]
  rw [scoreUpdate_players_keys { g with answers := dictSet g.answers sid (some answer) }
    sid c (fun k => hasAnswer (dictSet g.answers sid (some answer)) k)]
  exact all_hasAnswer_dictSet g.players g.answers sid answer

/-- `next_round` always emits exactly one transition notification:
`round_start` when a round begins, `game_over` when the rotation is done. -/
theorem next_round_emits_transition (cats sample3 : List String) (g : Game) :
    ((next_round cats sample3 g).2).any isTransitionNotif = true := by
  unfold next_round
  rcases g.order.find? (fun s => decide (countOf g s < 2)) with _ | sid <;>
    simp [end_game, isTransitionNotif]

/-- C5: `submit_answer` broadcasts `round_end` exactly when the sender holds a
question and, once the fresh answer is recorded, every currently-joined player
has a non-empty answer slot; and exactly in that same case the round
transition (`next_round`, observable as `round_start` or `game_over`) is
invoked. The hypothesis requires the sender to be a joined player: for a
non-joined sender holding a question the Python handler would raise at the
score line instead of reaching the barrier. -/
theorem C5_round_end_iff_barrier (cats sample3 : List String) (g : Game)
    (sid : Sid) (answer : Int)
    (hjoined : (dictGet? g.players sid).isSome = true) :
    (((receive_answer cats sample3 g sid answer).2).any isRoundEndNotif) =
      ((dictGet? g.questions sid).isSome &&
        g.players.all (fun e => (e.1 == sid) || hasAnswer g.answers e.1)) ∧
    (((receive_answer cats sample3 g sid answer).2).any isTransitionNotif) =
      ((dictGet? g.questions sid).isSome &&
        g.players.all (fun e => (e.1 == sid) || hasAnswer g.answers e.1)) := by
  unfold receive_answer
  rcases hq : dictGet? g.questions sid with _ | q
  · simp
  · dsimp only
    rw [allAnswered_scoreUpdate]
    cases hb : g.players.all (fun e => (e.1 == sid) || hasAnswer g.answers e.1)
    · simp [isRoundEndNotif, isTransitionNotif]
    · simp [isRoundEndNotif, isTransitionNotif, next_round_emits_transition]

/-- C5 witness: in the one-player game where A holds the round-1 question and
has not yet answered, submitting an answer makes the barrier true, and indeed
`round_end` and the transition are emitted. -/
theorem C5_round_end_iff_barrier_witness :
    (((receive_answer ["Cat"] [] oneReady 1 0).2).any isRoundEndNotif) =
      ((dictGet? oneReady.questions 1).isSome &&
        oneReady.players.all (fun e => (e.1 == 1) || hasAnswer oneReady.answers e.1)) ∧
    (((receive_answer ["Cat"] [] oneReady 1 0).2).any isTransitionNotif) =
      ((dictGet? oneReady.questions 1).isSome &&
        oneReady.players.all (fun e => (e.1 == 1) || hasAnswer oneReady.answers e.1)) :=
  C5_round_end_iff_barrier ["Cat"] [] oneReady 1 0 (by decide)

/-! ### Claim C7: contents of the game_over broadcast -/

/-- The head of the stable descending sort of a non-empty list is its first
element of maximal score: every earlier element of the original list scores
strictly less, every later one scores at most it. -/
theorem sortDesc_head_firstMax :
    ∀ (l : List (String × Nat)) (x : String × Nat),
      ∃ l₁ p l₂, x :: l = l₁ ++ p :: l₂ ∧
        (sortDesc (x :: l)).head? = some p ∧
        (∀ q ∈ l₁, q.2 < p.2) ∧ (∀ q ∈ l₂, q.2 ≤ p.2) := by
  intro l
  induction l with
  | nil =>
    intro x
    exact ⟨[], x, [], rfl, rfl, by simp, by simp⟩
  | cons y ys ih =>
    intro x
    obtain ⟨m₁, p, m₂, hdec, hhead, hlt, hle⟩ := ih y
    rcases hs : sortDesc (y :: ys) with _ | ⟨p0, t⟩
    · rw [hs] at hhead
      cases hhead
    · rw [hs] at hhead
      have hp0 : p0 = p := by simpa using hhead
      subst hp0
      by_cases h : p0.2 > x.2
      · refine ⟨x :: m₁, p0, m₂, ?_, ?_, ?_, hle⟩
        · rw [hdec]
          rfl
        · show (insertDesc x (sortDesc (y :: ys))).head? = some p0
          rw [hs]
          simp [insertDesc, h]
        · intro q hq
          rcases List.mem_cons.mp hq with hq | hq
          · subst hq
            exact h
          · exact hlt q hq
      · refine ⟨[], x, y :: ys, rfl, ?_, by simp, ?_⟩
        · show (insertDesc x (sortDesc (y :: ys))).head? = some x
          rw [hs]
          simp [insertDesc, h]
        · intro q hq
          have hpx : p0.2 ≤ x.2 := Nat.le_of_not_lt h
          rw [hdec] at hq
          rcases List.mem_append.mp hq with hq | hq
          · exact Nat.le_trans (Nat.le_of_lt (hlt q hq)) hpx
          · rcases List.mem_cons.mp hq with hq | hq
            · subst hq
              exact hpx
            · exact Nat.le_trans (hle q hq) hpx

/-- C7 (amended): `end_game` leaves the state unchanged and broadcasts one
`game_over` whose results list is the (name, score) pairs of all players in
player-map iteration (join) order — the code computes the descending sort but
emits the unsorted list — and whose winner field is the name of the first
player (in that same order) attaining the maximal score, ties kept stable; for
an empty room the winner field is the sentinel "Ingen" and results is []. -/
theorem C7_game_over_contents (g : Game) :
    (end_game g).1 = g ∧
    (end_game g).2 =
      [(Dest.toRoom, Notif.game_over (gameResults g) (winnerName g))] ∧
    (g.players = [] → gameResults g = [] ∧ winnerName g = "Ingen") ∧
    (g.players ≠ [] → ∃ l₁ p l₂, gameResults g = l₁ ++ p :: l₂ ∧
      winnerName g = p.1 ∧ (∀ q ∈ l₁, q.2 < p.2) ∧ (∀ q ∈ l₂, q.2 ≤ p.2)) := by
  refine ⟨rfl, rfl, ?_, ?_⟩
  · intro h
    simp [gameResults, winnerName, h, sortDesc]
  · intro h
    rcases hp : g.players with _ | ⟨e, rest⟩
    · exact absurd hp h
    · have hres : gameResults g =
          (e.2.name, e.2.score) :: rest.map (fun e => (e.2.name, e.2.score)) := by
        simp [gameResults, hp]
      obtain ⟨l₁, p, l₂, hdec, hhead, hlt, hle⟩ :=
        sortDesc_head_firstMax (rest.map (fun e => (e.2.name, e.2.score)))
          (e.2.name, e.2.score)
      refine ⟨l₁, p, l₂, ?_, ?_, hlt, hle⟩
      · rw [hres, hdec]
      · unfold winnerName
        rw [hres]
        rcases hs : sortDesc ((e.2.name, e.2.score) ::
            rest.map (fun e => (e.2.name, e.2.score))) with _ | ⟨r, t⟩
        · rw [hs] at hhead
          cases hhead
        · rw [hs] at hhead
          have hr : r = p := by simpa using hhead
          rw [hs]
          show r.1 = p.1
          rw [hr]

/-! ### Claim C3 (amended): the rotation runs exactly 2 x (players at start)
rounds when nobody joins after start -/

/-- A successful scan starts a round: `order` is kept, `round` goes up by one,
only the picker found gains a count, and one `round_start` is broadcast. -/
theorem next_round_success (cats sample3 : List String) (g : Game) (sid : Sid)
    (hfind : g.order.find? (fun s => decide (countOf g s < 2)) = some sid) :
    (next_round cats sample3 g).1.order = g.order ∧
    (next_round cats sample3 g).1.round = g.round + 1 ∧
    (∀ s, countOf (next_round cats sample3 g).1 s =
      if s = sid then countOf g sid + 1 else countOf g s) ∧
    (next_round cats sample3 g).2 =
      [(Dest.toRoom, Notif.round_start (g.round + 1)
        (((dictGet? g.players sid).map Player.name).getD "") sid
        (if cats.length ≥ 3 then sample3 else cats))] := by
  unfold next_round
  rw [hfind]
  refine ⟨rfl, rfl, ?_, rfl⟩
  intro s
  by_cases h : s = sid <;> simp [countOf, dictGet?_dictSet, h]

/-- A failed scan ends the game: the state is returned unchanged with the
single `game_over` broadcast. -/
theorem next_round_terminal (cats sample3 : List String) (g : Game)
    (hfind : g.order.find? (fun s => decide (countOf g s < 2)) = none) :
    next_round cats sample3 g =
      (g, [(Dest.toRoom, Notif.game_over (gameResults g) (winnerName g))]) := by
  unfold next_round
  rw [hfind]
  rfl

/-- With all counts zero the remaining capacity is twice the rotation size. -/
theorem phi_of_zero_counts (g : Game)
    (h : ∀ sid ∈ g.order, countOf g sid = 0) :
    phi g = 2 * g.order.length := by
  unfold phi
  have h2 : (g.order.map fun sid => 2 - countOf g sid) =
      g.order.map (fun _ => 2) :=
    List.map_congr_left (fun a ha => by rw [h a ha])
  rw [h2]
  simp only [List.map_const', List.sum_replicate, smul_eq_mul]
  omega

/-- A failed scan means the capacity is exhausted. -/
theorem phi_zero_of_find_none (g : Game)
    (hfind : g.order.find? (fun s => decide (countOf g s < 2)) = none) :
    phi g = 0 := by
  unfold phi
  apply List.sum_eq_zero
  intro x hx
  obtain ⟨s, hs, rfl⟩ := List.mem_map.mp hx
  have hns := List.find?_eq_none.mp hfind s hs
  simp only [decide_eq_true_eq] at hns
  omega

/-- Conversely, exhausted capacity makes the scan fail. -/
theorem find_none_of_phi_zero (g : Game) (h : phi g = 0) :
    g.order.find? (fun s => decide (countOf g s < 2)) = none := by
  rw [List.find?_eq_none]
  intro s hs
  simp only [decide_eq_true_eq]
  unfold phi at h
  have hall := (List.sum_eq_zero_iff).mp h
  have hz : 2 - countOf g s = 0 :=
    hall _ (List.mem_map.mpr ⟨s, hs, rfl⟩)
  omega

/-- A successful scan consumes exactly one unit of capacity (the rotation list
must be duplicate-free, which `start_game` guarantees since dict keys are
unique). -/
theorem phi_step (cats sample3 : List String) (g : Game) (sid : Sid)
    (hnodup : g.order.Nodup)
    (hfind : g.order.find? (fun s => decide (countOf g s < 2)) = some sid) :
    phi (next_round cats sample3 g).1 + 1 = phi g := by
  obtain ⟨ho, hr, hc, he⟩ := next_round_success cats sample3 g sid hfind
  have hmem : sid ∈ g.order := List.mem_of_find?_eq_some hfind
  have hlt : countOf g sid < 2 := by simpa using List.find?_some hfind
  obtain ⟨l₁, l₂, hdecomp⟩ := List.append_of_mem hmem
  have hnd := hnodup
  rw [hdecomp, List.nodup_append] at hnd
  obtain ⟨hnd1, hnd2, hdisj⟩ := hnd
  have hsid1 : sid ∉ l₁ := fun hin => hdisj hin (List.mem_cons_self _ _)
  have hsid2 : sid ∉ l₂ := (List.nodup_cons.mp hnd2).1
  unfold phi
  rw [ho, hdecomp, List.map_append, List.map_append, List.sum_append,
    List.sum_append]
  simp only [List.map_cons, List.sum_cons]
  have hmap1 : l₁.map (fun s => 2 - countOf (next_round cats sample3 g).1 s) =
      l₁.map (fun s => 2 - countOf g s) :=
    List.map_congr_left (fun a ha => by
      rw [hc a, if_neg (fun hh : a = sid => hsid1 (hh ▸ ha))])
  have hmap2 : l₂.map (fun s => 2 - countOf (next_round cats sample3 g).1 s) =
      l₂.map (fun s => 2 - countOf g s) :=
    List.map_congr_left (fun a ha => by
      rw [hc a, if_neg (fun hh : a = sid => hsid2 (hh ▸ ha))])
  rw [hmap1, hmap2, hc sid, if_pos rfl]
  omega

/-- Iterating `next_round` while capacity remains: `order` is preserved,
`round` counts up one per call, capacity counts down one per call. -/
theorem iterate_next_round (cats sample3 : List String) (g : Game)
    (hnodup : g.order.Nodup) :
    ∀ k, k ≤ phi g →
      ((nextState cats sample3)^[k] g).order = g.order ∧
      ((nextState cats sample3)^[k] g).round = g.round + k ∧
      phi ((nextState cats sample3)^[k] g) + k = phi g := by
  intro k
  induction k with
  | zero => intro _; exact ⟨rfl, rfl, rfl⟩
  | succ k ih =>
    intro hk
    obtain ⟨ho, hr, hphi⟩ := ih (Nat.le_of_succ_le hk)
    rw [Function.iterate_succ_apply']
    rcases hfind : ((nextState cats sample3)^[k] g).order.find?
        (fun s => decide (countOf ((nextState cats sample3)^[k] g) s < 2))
        with _ | sid
    · have h0 := phi_zero_of_find_none _ hfind
      omega
    · have hnd : ((nextState cats sample3)^[k] g).order.Nodup := by
        rw [ho]; exact hnodup
      obtain ⟨ho2, hr2, hc2, he2⟩ := next_round_success cats sample3 _ sid hfind
      have hstep := phi_step cats sample3 _ sid hnd hfind
      refine ⟨?_, ?_, ?_⟩
      · show (next_round cats sample3 ((nextState cats sample3)^[k] g)).1.order
          = g.order
        rw [ho2, ho]
      · show (next_round cats sample3 ((nextState cats sample3)^[k] g)).1.round
          = g.round + (k + 1)
        rw [hr2, hr]
        omega
      · show phi (next_round cats sample3 ((nextState cats sample3)^[k] g)).1
          + (k + 1) = phi g
        omega

/-- C3 (amended): when at least the players present at start form the shuffled
rotation (counts zero, no duplicates) and NO join happens after start, the
repeated round transitions from `start_game` run exactly
2 x (number of players at start) rounds: the k-th state has round counter k,
each of the first 2n transitions broadcasts `round_start` with round id k + 1,
and the transition after round 2n broadcasts `game_over`. (The unamended
claim, quantifying over all games, fails when a player rejoins after start —
see the counterexample — because `join` resets that picker count to 0.) -/
theorem C3_rounds_before_game_over (cats sample3 : List String) (g : Game)
    (shuffled : List Sid)
    (hlen : shuffled.length = g.players.length)
    (hnodup : shuffled.Nodup)
    (hcounts : ∀ sid ∈ shuffled, dictGet? g.picker_counts sid = some 0)
    (hround : g.round = 0) :
    (∀ k, k ≤ 2 * g.players.length →
      ((nextState cats sample3)^[k] { g with order := shuffled }).round = k) ∧
    (∀ k, k < 2 * g.players.length → ∃ pn ps,
      (next_round cats sample3
          ((nextState cats sample3)^[k] { g with order := shuffled })).2 =
        [(Dest.toRoom, Notif.round_start (k + 1) pn ps
          (if cats.length ≥ 3 then sample3 else cats))]) ∧
    (next_round cats sample3
        ((nextState cats sample3)^[2 * g.players.length]
          { g with order := shuffled })).2 =
      [(Dest.toRoom, Notif.game_over
        (gameResults ((nextState cats sample3)^[2 * g.players.length]
          { g with order := shuffled }))
        (winnerName ((nextState cats sample3)^[2 * g.players.length]
          { g with order := shuffled })))] := by
  have hcount0 : ∀ sid ∈ ({ g with order := shuffled } : Game).order,
      countOf { g with order := shuffled } sid = 0 := by
    intro s hs
    show (dictGet? g.picker_counts s).getD 0 = 0
    rw [hcounts s hs]
    rfl
  have hphi0 : phi { g with order := shuffled } = 2 * g.players.length := by
    rw [phi_of_zero_counts _ hcount0]
    show 2 * shuffled.length = 2 * g.players.length
    rw [hlen]
  have hiter := iterate_next_round cats sample3 { g with order := shuffled }
    hnodup
  refine ⟨?_, ?_, ?_⟩
  · intro k hk
    obtain ⟨_, hr, _⟩ := hiter k (by omega)
    rw [hr]
    show g.round + k = k
    omega
  · intro k hk
    obtain ⟨ho, hr, hphi⟩ := hiter k (by omega)
    rcases hfind : ((nextState cats sample3)^[k]
          { g with order := shuffled }).order.find?
        (fun s => decide (countOf ((nextState cats sample3)^[k]
          { g with order := shuffled }) s < 2)) with _ | sid
    · have h0 := phi_zero_of_find_none _ hfind
      omega
    · obtain ⟨_, _, _, he⟩ := next_round_success cats sample3 _ sid hfind
      rw [hr] at he
      rw [show g.round + k + 1 = k + 1 from by omega] at he
      exact ⟨_, sid, he⟩
  · obtain ⟨_, _, hphi⟩ := hiter (2 * g.players.length) (by omega)
    have h0 : phi ((nextState cats sample3)^[2 * g.players.length]
        { g with order := shuffled }) = 0 := by omega
    rw [next_round_terminal _ _ _ (find_none_of_phi_zero _ h0)]

/-- C3 witness: the amended statement instantiated on the two-player room
shuffled to order [B, A] = [2, 1]: exactly 4 rounds run, the transition after
round 4 broadcasts `game_over`. -/
theorem C3_rounds_before_game_over_witness :
    (∀ k, k ≤ 2 * twoRoom.players.length →
      ((nextState ["Cat"] [])^[k] { twoRoom with order := [2, 1] }).round = k) ∧
    (∀ k, k < 2 * twoRoom.players.length → ∃ pn ps,
      (next_round ["Cat"] []
          ((nextState ["Cat"] [])^[k] { twoRoom with order := [2, 1] })).2 =
        [(Dest.toRoom, Notif.round_start (k + 1) pn ps
          (if List.length ["Cat"] ≥ 3 then [] else ["Cat"]))]) ∧
    (next_round ["Cat"] []
        ((nextState ["Cat"] [])^[2 * twoRoom.players.length]
          { twoRoom with order := [2, 1] })).2 =
      [(Dest.toRoom, Notif.game_over
        (gameResults ((nextState ["Cat"] [])^[2 * twoRoom.players.length]
          { twoRoom with order := [2, 1] }))
        (winnerName ((nextState ["Cat"] [])^[2 * twoRoom.players.length]
          { twoRoom with order := [2, 1] })))] :=
  C3_rounds_before_game_over ["Cat"] [] twoRoom [2, 1]
    (by decide) (by decide) (by decide) (by decide)

end QuizWiz
